import Mathlib

/-!
Verification development for the `price_watch` repository
(`price_watch/models.py`, Python 2).

The Python source is shallowly embedded:

* Python numeric values (`None`, `int`, `float`, `str`) are modelled by the
  inductive `PyVal`; Python 2 arithmetic (`int - int` stays `int`,
  `int / int` is floor division, any `float` operand promotes to `float`,
  `None`/`str` operands raise `TypeError`, a zero divisor raises
  `ZeroDivisionError`) is modelled by `pySub` / `pyDiv` returning
  `Except PyErr PyVal`.  Python `float` is modelled by `ℚ` (all values
  appearing in the verified claims are exactly representable).
* The ZODB root (`StorageManager._root`, namespace → BTree of key → entity)
  is modelled by association lists; BTrees never hold duplicate keys, which
  is the `StorageWF` invariant.
* Entity keys (`Entity.key`) are the formatted `_key_pattern` with every
  `/` replaced by `-`.
* Lookups into the external `data_map.yaml` configuration file (which is not
  part of the two source modules) are passed in as explicit arguments
  (category key, package key, parent category key, normal package, density).
-/

/-- Python exception kinds that occur in the modelled code paths. -/
inductive PyErr : Type where
  | typeError
  | zeroDivisionError
  | valueError
  | keyError
  | attributeError
  deriving DecidableEq, Repr

/-- Python values relevant to `get_delta`: `None`, `int`, `float` (modelled
exactly by `ℚ`) and `str` (a non-numeric, non-`None` value). -/
inductive PyVal : Type where
  | none
  | int (z : ℤ)
  | float (q : ℚ)
  | str (s : String)
  deriving DecidableEq, Repr

/-- True exactly on Python numeric values (`int` or `float`). -/
def PyVal.isNumeric : PyVal → Bool
  | .int _ => true
  | .float _ => true
  | _ => false

/-- Python 2 subtraction: numeric pairs subtract (promoting to `float` when
either side is a `float`); any other pair raises `TypeError`. -/
def pySub : PyVal → PyVal → Except PyErr PyVal
  | .int a, .int b => .ok (.int (a - b))
  | .int a, .float b => .ok (.float ((a : ℚ) - b))
  | .float a, .int b => .ok (.float (a - (b : ℚ)))
  | .float a, .float b => .ok (.float (a - b))
  | _, _ => .error .typeError

/-- Python 2 division `/`: `int / int` is floor division (`Int.fdiv`), any
`float` operand gives true division; a zero divisor raises
`ZeroDivisionError` (also for floats, unlike IEEE); non-numeric operands
raise `TypeError`. -/
def pyDiv : PyVal → PyVal → Except PyErr PyVal
  | .int a, .int b =>
      if b = 0 then .error .zeroDivisionError else .ok (.int (Int.fdiv a b))
  | .int a, .float b =>
      if b = 0 then .error .zeroDivisionError else .ok (.float ((a : ℚ) / b))
  | .float a, .int b =>
      if b = 0 then .error .zeroDivisionError else .ok (.float (a / (b : ℚ)))
  | .float a, .float b =>
      if b = 0 then .error .zeroDivisionError else .ok (.float (a / b))
  | _, _ => .error .typeError

/-- Embedding of `models.get_delta(base_price, current_price, relative)`:
inside a `try` block compute `current - base`, divide by `base` when
`relative`; `except TypeError: return 0`.  Other exceptions
(`ZeroDivisionError`) propagate. -/
def get_delta (base current : PyVal) (relative : Bool) : Except PyErr PyVal :=
  let body : Except PyErr PyVal :=
    match pySub current base with
    | .error e => .error e
    | .ok d => if relative then pyDiv d base else .ok d
  match body with
  | .error .typeError => .ok (.int 0)
  | r => r

/-- Embedding of `Entity.key`: the formatted `_key_pattern` string with every
`/` replaced by `-`.  The Python `replace` call has a one-character pattern
and a one-character replacement, so it is exactly a character map. -/
def entityKey (rawKey : String) : String :=
  String.mk (rawKey.data.map fun c => if c = '/' then '-' else c)

/-- Reporter model: `_key_pattern` equal to the name field. -/
structure Reporter : Type where
  name : String
  deriving DecidableEq, Repr

/-- Reporter key: the formatted pattern is just the name. -/
def Reporter.key (r : Reporter) : String := entityKey r.name

/-- Merchant model: fields `title` and `location`.  The class sets
a `_representation` pattern of title, dash, location, but does NOT
override `_key_pattern`, so the key pattern is the inherited title-only one. -/
structure Merchant : Type where
  title : String
  location : Option String
  deriving DecidableEq, Repr

/-- Merchant key: inherited pattern formats the title only. -/
def Merchant.key (m : Merchant) : String := entityKey m.title

/-- Merchant textual representation (`__repr__`), for a merchant whose
location is a string: the `_representation` pattern title-dash-location. -/
def Merchant.representation (title location : String) : String :=
  title ++ "-" ++ location

/-- Convert a list of decimal digit characters to a natural number; no value
for an empty list or a non-digit character.  Models the digit runs accepted
by Python float parsing of package amounts. -/
def digitsToNat (cs : List Char) : Option ℕ :=
  if cs ≠ [] ∧ cs.all Char.isDigit then
    some (cs.foldl (fun n c => 10 * n + (c.toNat - 48)) 0)
  else
    Option.none

/-- Split a character list at every occurrence of a separator character,
keeping empty groups — the behaviour of Python `split` with a one-character
separator. -/
def splitOnChar (sep : Char) : List Char → List (List Char)
  | [] => [[]]
  | c :: rest =>
      match splitOnChar sep rest with
      | [] => if c = sep then [[], []] else [[c]]
      | g :: gs => if c = sep then [] :: g :: gs else (c :: g) :: gs

/-- Embedding of Python float parsing restricted to the non-negative decimal
literals that occur as package amounts (an integer part, optionally a dot and
a fraction part).  The result is the exact rational value. -/
def parseDecimal (s : String) : Option ℚ :=
  match splitOnChar '.' s.data with
  | [w] => (digitsToNat w).map (fun n => (n : ℚ))
  | [w, f] =>
      match digitsToNat w, digitsToNat f with
      | some wn, some fn =>
          some ((wn : ℚ) + (fn : ℚ) / (10 : ℚ) ^ f.length)
      | _, _ => Option.none
  | _ => Option.none

/-- Embedding of the unpacking `amount, unit = title.split(' ')` used by
`ProductPackage.convert` and `ProductPackage.get_ratio`: the title must be
exactly an amount, one space, and a unit (otherwise Python raises, modelled
as no value). -/
def parseAmountUnit (title : String) : Option (ℚ × String) :=
  match splitOnChar ' ' title.data with
  | [a, u] => (parseDecimal (String.mk a)).map (fun q => (q, String.mk u))
  | _ => Option.none

/-- Core of `ProductPackage.convert` on an already-parsed amount: kg to l is
`liters = (weight_kg / density) * 1000`, l to kg is `kg = density * liters`;
any other unit pair falls through and returns no value.  (A zero density in
the kg-to-l branch raises `ZeroDivisionError` in Python; theorems about that
branch assume a nonzero density.) -/
def convertCore (amount : ℚ) (fromUnit toUnit : String) (density : ℚ) :
    Option ℚ :=
  if fromUnit = "kg" ∧ toUnit = "l" then
    some (amount / density * 1000)
  else if fromUnit = "l" ∧ toUnit = "kg" then
    some (density * amount)
  else
    Option.none

/-- Embedding of `ProductPackage.convert(to_unit, category)` where the
package title carries the amount and source unit and the density comes from
the category data in `data_map.yaml` (passed explicitly). -/
def ProductPackage.convert (title toUnit : String) (density : ℚ) : Option ℚ :=
  (parseAmountUnit title).bind fun au => convertCore au.1 au.2 toUnit density

/-- Embedding of `ProductPackage.get_ratio(category)`: split the normal
package title of the category and the package title into amount and unit,
convert the package amount when units differ (a failed conversion makes the
following float() call raise in Python, modelled as no value), and return
`pack_amount / norm_amount`.  (A zero norm amount raises
`ZeroDivisionError` in Python; theorems assume it nonzero.) -/
def ProductPackage.getRatio (title normalPackage : String) (density : ℚ) :
    Option ℚ :=
  match parseAmountUnit normalPackage, parseAmountUnit title with
  | some (normAmount, normUnit), some (packAmount, packUnit) =>
      let converted : Option ℚ :=
        if packUnit ≠ normUnit then
          convertCore packAmount packUnit normUnit density
        else
          some packAmount
      converted.map (fun a => a / normAmount)
  | _, _ => Option.none

/-- Embedding of `PriceReport.__init__` / `PriceReport._get_normalized_price`:
at construction the report stores
`normalized_price_value = price_value / ratio`, where `ratio` is the ratio of
the product package to the normal package of the product category, resolved
at this instant. -/
def mkNormalizedPrice (priceValue : ℚ) (packageTitle normalPackage : String)
    (density : ℚ) : Option ℚ :=
  (ProductPackage.getRatio packageTitle normalPackage density).map
    (fun ratio => priceValue / ratio)

/-- Association-list lookup, modelling indexing into the ZODB root or a
BTree. -/
def alLookup {α : Type} : List (String × α) → String → Option α
  | [], _ => Option.none
  | (k, v) :: rest, key => if k = key then some v else alLookup rest key

/-- Association-list update-or-append, modelling assignment into the ZODB
root or a BTree. -/
def alSet {α : Type} : List (String × α) → String → α → List (String × α)
  | [], key, v => [(key, v)]
  | (k, w) :: rest, key, v =>
      if k = key then (k, v) :: rest else (k, w) :: alSet rest key v

/-- One BTree of the storage root: key to entity. -/
abbrev NsTree (V : Type) : Type := List (String × V)

/-- The ZODB root of `StorageManager`: namespace to BTree. -/
abbrev Storage (V : Type) : Type := List (String × NsTree V)

/-- Number of records stored under `key` in a tree.  A real BTree never holds
two records with one key; `StorageWF` states that for the model. -/
def countKey {V : Type} (tree : NsTree V) (key : String) : ℕ :=
  (tree.filter (fun p => p.1 = key)).length

/-- BTree well-formedness of a storage root: within every namespace each key
occurs at most once. -/
def StorageWF {V : Type} (st : Storage V) : Prop :=
  ∀ ns tree, alLookup st ns = some tree → ∀ key, countKey tree key ≤ 1

/-- Embedding of `StorageManager.register` for one instance: create the
namespace BTree if missing, then insert the instance under its key only if
the key is not already present. -/
def storageRegister {V : Type} (st : Storage V) (ns key : String) (v : V) :
    Storage V :=
  let st1 : Storage V :=
    match alLookup st ns with
    | some _ => st
    | Option.none => alSet st ns []
  match alLookup st1 ns with
  | some tree =>
      match alLookup tree key with
      | some _ => st1
      | Option.none => alSet st1 ns (tree ++ [(key, v)])
  | Option.none => st1

/-- Embedding of `StorageManager.get`: missing namespace or key is answered
with no value (the `KeyError` is caught). -/
def storageGet {V : Type} (st : Storage V) (ns key : String) : Option V :=
  (alLookup st ns).bind fun tree => alLookup tree key

/-- Embedding of `StorageManager.delete_key`: delete the key in the
namespace, reporting whether a record was present (`KeyError` is converted
to `false`). -/
def storageDeleteKey {V : Type} (st : Storage V) (ns key : String) :
    Storage V × Bool :=
  match alLookup st ns with
  | Option.none => (st, false)
  | some tree =>
      match alLookup tree key with
      | Option.none => (st, false)
      | some _ =>
          (alSet st ns (tree.filter (fun p => p.1 ≠ key)), true)

/-- The entity instances that take part in `PriceReport.assemble`, carrying
the constructor fields that determine their keys.  Container and link
fields (product lists, report lists, package ratio) are mutated on these
objects by the workflow but never affect which records exist under which
keys, which is what the assembly claims are about. -/
inductive EntityVal : Type where
  | product (title : String)
  | pcategory (title : String)
  | package (title : String)
  | ctype (title : String)
  | merchant (title : String)
  | reporter (name : String)
  | report (uuid : String)
  deriving DecidableEq, Repr

/-- Embedding of `Entity.acquire(key_attr, storage_manager, ...)`: derive the
key from a fresh instance built on `key_attr`, fetch it, and if absent
construct and register a new instance, reporting whether one was created. -/
def entityAcquire (st : Storage EntityVal) (ns : String)
    (mk : String → EntityVal) (keyAttr : String) :
    EntityVal × Bool × Storage EntityVal :=
  let key := entityKey keyAttr
  match storageGet st ns key with
  | some inst => (inst, false, st)
  | Option.none =>
      let inst := mk keyAttr
      (inst, true, storageRegister st ns key inst)

/-- Embedding of `Product.assemble(storage_manager, title)`.  The
data-map classification results (`get_category_key`, `get_package_key`, the
parent key from `ProductCategory.get_category_key`) are passed in, since
`data_map.yaml` is external configuration.  Returns the product, the
`(cat_is_new, pack_is_new)` stats pair, and the new storage state. -/
def productAssemble (st : Storage EntityVal)
    (title catKey packKey parentKey : String) :
    EntityVal × (Bool × Bool) × Storage EntityVal :=
  let product := EntityVal.product title
  let acat := entityAcquire st "categories" EntityVal.pcategory catKey
  let productCategory := acat.1
  let catIsNew := acat.2.1
  let st := acat.2.2
  let apack := entityAcquire st "packages" EntityVal.package packKey
  let packIsNew := apack.2.1
  let st := apack.2.2
  let atype := entityAcquire st "types" EntityVal.ctype parentKey
  let category := atype.1
  let st := atype.2.2
  let st := storageRegister st "products" (entityKey title) product
  let st := storageRegister st "categories" (entityKey catKey) productCategory
  let st := storageRegister st "types" (entityKey parentKey) category
  (product, (catIsNew, packIsNew), st)

/-- Embedding of `PriceReport.assemble`, restricted to the parts that decide
which entities exist and the returned stats triple.  Mirrors the source
dataflow: `prod_is_new = cat_is_new = pack_is_new = False`; when the product
is absent, `prod_is_new` becomes true and the stats pair computed by
`Product.assemble` is bound to the local name `stats` (here `innerStats`)
which is overwritten at the end, the `cat_is_new` / `pack_is_new` locals
never being reassigned.  Returns the report, the stats triple
`(prod_is_new, cat_is_new, pack_is_new)`, and the new storage state. -/
def priceReportAssemble (st : Storage EntityVal)
    (productTitle catKey packKey parentKey merchantTitle reporterName
     uuid : String) :
    EntityVal × (Bool × Bool × Bool) × Storage EntityVal :=
  let prodIsNew := false
  let catIsNew := false
  let packIsNew := false
  let productKey := entityKey productTitle
  let step :=
    match storageGet st "products" productKey with
    | some p => (p, prodIsNew, st)
    | Option.none =>
        let asm := productAssemble st productTitle catKey packKey parentKey
        let _innerStats := asm.2.1
        (asm.1, true, asm.2.2)
  let st := step.2.2
  let prodIsNew := step.2.1
  let merchantKey := entityKey merchantTitle
  let amer := entityAcquire st "merchants" EntityVal.merchant merchantKey
  let st := amer.2.2
  let arep := entityAcquire st "reporters" EntityVal.reporter reporterName
  let st := arep.2.2
  let report := EntityVal.report uuid
  let st := storageRegister st "reports" (entityKey uuid) report
  let stats := (prodIsNew, catIsNew, packIsNew)
  (report, stats, st)

/-- A price report as seen by its product report list: reports compare by
key (`Entity.__eq__`), and a report key is its uuid. -/
structure PriceReportRef : Type where
  uuid : String
  deriving DecidableEq, Repr

/-- Python `list.remove(x)`: remove the first element equal to `x`, raising
`ValueError` when no element equals `x`. -/
def pyListRemove {α : Type} [DecidableEq α] (l : List α) (x : α) :
    Except PyErr (List α) :=
  if x ∈ l then .ok (l.erase x) else .error .valueError

/-- Embedding of `PriceReport.delete_from(storage_manager)`: inside a `try`
block remove the report from `self.product.reports` (a Python list), catching
only `KeyError` and `AttributeError`; then delete the storage key in the
`reports` namespace.  Any other exception from the removal (in particular
the `ValueError` that `list.remove` raises on a missing element) propagates,
skipping the storage deletion.  Returns the updated report list of the
product and the updated storage. -/
def priceReportDeleteFrom {V : Type} (productReports : List PriceReportRef)
    (r : PriceReportRef) (st : Storage V) :
    Except PyErr (List PriceReportRef × Storage V) :=
  match pyListRemove productReports r with
  | .ok reports2 =>
      .ok (reports2, (storageDeleteKey st "reports" (entityKey r.uuid)).1)
  | .error e =>
      if e = .keyError ∨ e = .attributeError then
        .ok (productReports, (storageDeleteKey st "reports"
          (entityKey r.uuid)).1)
      else
        .error e

/-- Python `min` over a float list: `ValueError` (no value) on the empty
list, otherwise the left fold with binary minimum. -/
def pyMin (l : List ℚ) : Option ℚ :=
  match l with
  | [] => Option.none
  | x :: xs => some (xs.foldl min x)

/-- Stable insertion into an ascending list (the new element goes before
existing equal elements, the position `sorted` gives to an earlier
occurrence). -/
def insertSortedQ (x : ℚ) : List ℚ → List ℚ
  | [] => [x]
  | y :: ys => if x ≤ y then x :: y :: ys else y :: insertSortedQ x ys

/-- Ascending sort of a rational list (stable insertion sort). -/
def sortQ (l : List ℚ) : List ℚ := l.foldr insertSortedQ []

/-- Embedding of `numpy.median`: sort ascending; odd length takes the middle
element, even length the mean of the two middle elements; the empty list has
no median. -/
def numpyMedian (l : List ℚ) : Option ℚ :=
  let s := sortQ l
  let n := s.length
  if n = 0 then Option.none
  else if n % 2 = 1 then some (s.getD (n / 2) 0)
  else some ((s.getD (n / 2 - 1) 0 + s.getD (n / 2) 0) / 2)

/-- Python 2 `round` to an integer: half away from zero. -/
def pyRound (q : ℚ) : ℤ :=
  if 0 ≤ q then ⌊q + 1 / 2⌋ else -⌊-q + 1 / 2⌋

/-- Python 2 `round(x, 2)`: two decimal places, half away from zero. -/
def pyRound2 (q : ℚ) : ℚ := (pyRound (q * 100) : ℚ) / 100

/-- Embedding of `ProductCategory.get_price` applied to the qualified price
list (both the `prices` argument and the `get_prices` fallback of the
source produce that list): on a non-empty list return the minimum when
`cheap`, else the median rounded to two decimal places; on an empty list
return no value. -/
def categoryGetPrice (prices : List ℚ) (cheap : Bool) : Option ℚ :=
  if prices.length ≠ 0 then
    if cheap then pyMin prices
    else (numpyMedian prices).map pyRound2
  else
    Option.none

/-- A merchant as referenced by a product, for `Product.get_price`.  Python
compares merchants by object identity (`is not`); distinct objects carry
distinct `mid` values, so record equality models identity. -/
structure MerchantRef : Type where
  mid : ℕ
  location : Option String
  deriving DecidableEq, Repr

/-- A stored price report of a product, with date-times modelled as integer
seconds. -/
structure ReportRec : Type where
  merchant : MerchantRef
  dateTime : ℤ
  priceValue : ℚ
  normalizedPriceValue : ℚ
  deriving DecidableEq, Repr

/-- A product as used by `Product.get_price`: its merchant list and its
report list. -/
structure ProductRec : Type where
  merchants : List MerchantRef
  reports : List ReportRec
  deriving Repr

/-- Stable insertion of a report into a list ascending by date-time,
modelling the stable `sorted(reports, key=attrgetter(...))`. -/
def insertReportSorted (r : ReportRec) : List ReportRec → List ReportRec
  | [] => [r]
  | x :: xs =>
      if r.dateTime ≤ x.dateTime then r :: x :: xs
      else x :: insertReportSorted r xs

/-- `REPORT_LIFETIME`: one week, in seconds. -/
def reportLifetime : ℤ := 604800

/-- Truthiness of the optional `location` argument: `None` and the empty
string are falsy. -/
def locTruthy : Option String → Bool
  | Option.none => false
  | some s => s ≠ ""

/-- Embedding of `Product.get_last_report(date_time, merchant)`: sort the
reports ascending by date-time, keep those at or before `date_time` and
(when a merchant is given) those whose merchant is that object, and take the
last one; no qualifying report gives no value. -/
def productGetLastReport (reports : List ReportRec) (dateTime : ℤ)
    (merchant : Option MerchantRef) : Option ReportRec :=
  if reports.length > 0 then
    let sorted := reports.foldr insertReportSorted []
    let qualified := sorted.filter fun r =>
      decide (r.dateTime ≤ dateTime) &&
        (match merchant with
         | Option.none => true
         | some m => decide (r.merchant = m))
    qualified.getLast?
  else
    Option.none

/-- The merchant loop of `Product.get_price`, accumulating `known_prices`.
When a location is requested (truthy) and the merchant at hand has a
different location, the source executes `break`, ending the whole loop. -/
def productGetPriceLoop (reports : List ReportRec) (dateTime : ℤ)
    (normalized : Bool) (location : Option String) :
    List MerchantRef → List ℚ → List ℚ
  | [], acc => acc
  | m :: ms, acc =>
      if locTruthy location && decide (m.location ≠ location) then acc
      else
        let acc2 :=
          match productGetLastReport reports dateTime (some m) with
          | some r =>
              if r.dateTime > dateTime - reportLifetime then
                acc ++ [if normalized then r.normalizedPriceValue
                        else r.priceValue]
              else acc
          | Option.none => acc
        productGetPriceLoop reports dateTime normalized location ms acc2

/-- Embedding of `Product.get_price(date_time, normalized, location)`: run
the merchant loop collecting fresh last-report prices, then the median of
the collected prices, or no value when none were collected. -/
def productGetPrice (p : ProductRec) (dateTime : ℤ) (normalized : Bool)
    (location : Option String) : Option ℚ :=
  let knownPrices :=
    productGetPriceLoop p.reports dateTime normalized location p.merchants []
  if knownPrices.length ≠ 0 then numpyMedian knownPrices
  else Option.none

lemma alLookup_alSet_self {α : Type} (l : List (String × α)) (k : String)
    (v : α) : alLookup (alSet l k v) k = some v := by
  induction l with
  | nil => simp [alSet, alLookup]
  | cons p rest ih =>
      obtain ⟨k2, w⟩ := p
      by_cases h : k2 = k
      · simp [alSet, alLookup, h]
      · simp [alSet, alLookup, h, ih]

lemma alLookup_append_of_none {α : Type} (l m : List (String × α))
    (k : String) (h : alLookup l k = Option.none) :
    alLookup (l ++ m) k = alLookup m k := by
  induction l with
  | nil => simp
  | cons p rest ih =>
      obtain ⟨k2, w⟩ := p
      by_cases hk : k2 = k
      · simp [alLookup, hk] at h
      · simp [alLookup, hk] at h ⊢
        exact ih h

lemma countKey_of_lookup_none {V : Type} (tree : NsTree V) (key : String)
    (h : alLookup tree key = Option.none) : countKey tree key = 0 := by
  induction tree with
  | nil => simp [countKey]
  | cons p rest ih =>
      obtain ⟨k2, w⟩ := p
      by_cases hk : k2 = key
      · simp [alLookup, hk] at h
      · simp [alLookup, hk] at h
        simp [countKey, List.filter, hk] at ih ⊢
        exact ih h

lemma countKey_pos_of_lookup_some {V : Type} (tree : NsTree V) (key : String)
    (v : V) (h : alLookup tree key = some v) : 1 ≤ countKey tree key := by
  induction tree with
  | nil => simp [alLookup] at h
  | cons p rest ih =>
      obtain ⟨k2, w⟩ := p
      by_cases hk : k2 = key
      · simp [countKey, List.filter, hk]
      · simp [alLookup, hk] at h
        simp [countKey, List.filter, hk] at ih ⊢
        exact ih h

lemma countKey_append_self {V : Type} (tree : NsTree V) (key : String)
    (v : V) : countKey (tree ++ [(key, v)]) key = countKey tree key + 1 := by
  simp [countKey, List.filter_append]

/-- C4 counterexample: the claim asserts that
`get_delta(100, 150, relative=True)` equals `0.5`, but under Python 2
semantics the operands are `int`s, `/` is floor division, and the call
returns the integer `0`, which is not `0.5`. -/
theorem c4_get_delta_counterexample :
    get_delta (.int 100) (.int 150) true = .ok (.int 0) ∧
    (0 : ℚ) ≠ 1 / 2 := by
  constructor
  · rfl
  · norm_num

/-- C4 (amended): `get_delta` returns `0` when either input is absent or
non-numeric; with `relative=False` it returns `current - base`
(`50` for `100, 150`); with `relative=True` it returns
`(current - base) / base` under Python 2 division, which is floor division
for two `int`s — so `get_delta(100, 150, True) = 0` — and true division as
soon as the operands are floats — so `get_delta(100.0, 150.0, True) = 0.5`. -/
theorem c4_get_delta_amended (w : PyVal) (rel : Bool) (b c : ℤ) (qb qc : ℚ)
    (hqb : qb ≠ 0) :
    get_delta PyVal.none w rel = .ok (.int 0) ∧
    get_delta w PyVal.none rel = .ok (.int 0) ∧
    get_delta (.int 100) (.int 150) false = .ok (.int 50) ∧
    get_delta (.int 100) (.int 150) true = .ok (.int 0) ∧
    get_delta (.float 100) (.float 150) true = .ok (.float (1 / 2)) ∧
    get_delta (.int b) (.int c) false = .ok (.int (c - b)) ∧
    get_delta (.float qb) (.float qc) true =
      .ok (.float ((qc - qb) / qb)) ∧
    get_delta (.str "a") (.str "b") rel = .ok (.int 0) := by
  refine ⟨?_, ?_, rfl, rfl, by norm_num [get_delta, pySub, pyDiv], rfl,
    ?_, ?_⟩
  · cases w <;> cases rel <;> rfl
  · cases w <;> cases rel <;> rfl
  · simp [get_delta, pySub, pyDiv, hqb]
  · cases rel <;> rfl

/-- C4 witness: the amended theorem applied at concrete inputs. -/
theorem c4_get_delta_amended_witness :
    (100 : ℚ) ≠ 0 ∧
    get_delta (.float 100) (.float 150) true = .ok (.float (1 / 2)) := by
  have h := c4_get_delta_amended (.int 5) true 100 150 100 150 (by norm_num)
  exact ⟨by norm_num, h.2.2.2.2.1⟩

/-- C9: with a base price of `0` and `relative=True`, `get_delta` on any
numeric current price raises `ZeroDivisionError` — the division is
unguarded, only `TypeError` is converted to `0`. -/
theorem c9_zero_base_delta_raises (w : PyVal) (h : w.isNumeric = true) :
    get_delta (.int 0) w true = .error .zeroDivisionError := by
  cases w with
  | int z => simp [get_delta, pySub, pyDiv]
  | float q => simp [get_delta, pySub, pyDiv]
  | none => simp [PyVal.isNumeric] at h
  | str s => simp [PyVal.isNumeric] at h

/-- C9 witness: `get_delta(0, 120, relative=True)` raises
`ZeroDivisionError`. -/
theorem c9_zero_base_delta_raises_witness :
    get_delta (.int 0) (.int 120) true = .error .zeroDivisionError :=
  c9_zero_base_delta_raises (.int 120) rfl

/-- C2 counterexample: a Merchant titled CoopMart at location Springfield
has key CoopMart — the inherited title-only key pattern — not the
CoopMart-Springfield key the claim asserts. -/
theorem c2_merchant_key_counterexample :
    Merchant.key ⟨"CoopMart", some "Springfield"⟩ = "CoopMart" ∧
    "CoopMart" ≠ "CoopMart-Springfield" := by
  constructor
  · rfl
  · decide

/-- C2 (amended): key derivation is deterministic with every slash replaced
by a dash; a Reporter key is the name (so Jane gives Jane); a Merchant key
is the title only — location appears in the textual representation, not in
the key — so CoopMart at Springfield gives key CoopMart, and a slash in the
title is replaced (Coop/Mart gives Coop-Mart). -/
theorem c2_key_derivation_amended (n t : String) (l : Option String) :
    (Reporter.key ⟨n⟩).data =
      (n.data.map fun c => if c = '/' then '-' else c) ∧
    (Merchant.key ⟨t, l⟩).data =
      (t.data.map fun c => if c = '/' then '-' else c) ∧
    Reporter.key ⟨"Jane"⟩ = "Jane" ∧
    Merchant.key ⟨"CoopMart", some "Springfield"⟩ = "CoopMart" ∧
    Merchant.key ⟨"Coop/Mart", some "Springfield"⟩ = "Coop-Mart" ∧
    Merchant.representation "CoopMart" "Springfield" =
      "CoopMart-Springfield" := by
  refine ⟨rfl, rfl, ?_, ?_, ?_, rfl⟩ <;> decide

lemma parseAmountUnit_half_kg : parseAmountUnit "0.5 kg" = some (1 / 2, "kg") := by
  have a1 : splitOnChar ' ' "0.5 kg".data = [['0', '.', '5'], ['k', 'g']] := by
    decide
  have a2 : splitOnChar '.' (String.mk ['0', '.', '5']).data = [['0'], ['5']] := by
    decide
  have a3 : digitsToNat ['0'] = some 0 := by decide
  have a4 : digitsToNat ['5'] = some 5 := by decide
  simp [parseAmountUnit, parseDecimal, a1, a2, a3, a4]
  norm_num

lemma parseAmountUnit_one_kg : parseAmountUnit "1 kg" = some (1, "kg") := by
  have a1 : splitOnChar ' ' "1 kg".data = [['1'], ['k', 'g']] := by decide
  have a2 : splitOnChar '.' (String.mk ['1']).data = [['1']] := by decide
  have a3 : digitsToNat ['1'] = some 1 := by decide
  simp [parseAmountUnit, parseDecimal, a1, a2, a3]

lemma getRatio_half : ∀ density : ℚ,
    ProductPackage.getRatio "0.5 kg" "1 kg" density = some (1 / 2) := by
  intro density
  simp [ProductPackage.getRatio, parseAmountUnit_half_kg, parseAmountUnit_one_kg]

/-- C5: a price report's `normalized_price_value` is the construction-time
`price_value / ratio`, where `ratio` is the product package to normal
package ratio; in particular a product packaged as half a kilogram in a
category whose normal package is one kilogram has ratio one half, and a
report of price 50 on it is normalized to 100. -/
theorem c5_normalized_price (price ratio density : ℚ) (title np : String)
    (h : ProductPackage.getRatio title np density = some ratio) :
    mkNormalizedPrice price title np density = some (price / ratio) ∧
    ProductPackage.getRatio "0.5 kg" "1 kg" density = some (1 / 2) ∧
    mkNormalizedPrice 50 "0.5 kg" "1 kg" density = some 100 := by
  refine ⟨by simp [mkNormalizedPrice, h], getRatio_half density, ?_⟩
  simp [mkNormalizedPrice, getRatio_half density]
  norm_num

/-- C5 witness: the theorem applied to the concrete half-kilogram package of
the claim. -/
theorem c5_normalized_price_witness :
    mkNormalizedPrice 50 "0.5 kg" "1 kg" 1 = some (50 / (1 / 2)) :=
  (c5_normalized_price 50 (1 / 2) 1 "0.5 kg" "1 kg" (getRatio_half 1)).1

/-- C8 counterexample: converting 1 kg to liters at density 1.03 gives
100000/103 (about 970.87) liters, and converting that result back from
liters to kilograms at the same density gives exactly 1000 — not the
original amount 1, contradicting the claimed round trip. -/
theorem c8_convert_roundtrip_counterexample :
    ProductPackage.convert "1 kg" "l" (103 / 100) = some (100000 / 103) ∧
    convertCore 1 "kg" "l" (103 / 100) = some (100000 / 103) ∧
    convertCore (100000 / 103) "l" "kg" (103 / 100) = some 1000 ∧
    (1000 : ℚ) ≠ 1 := by
  refine ⟨?_, ?_, ?_, by norm_num⟩
  · simp [ProductPackage.convert, parseAmountUnit_one_kg, convertCore]
    norm_num
  · simp [convertCore]; norm_num
  · simp [convertCore]; norm_num

lemma parseAmountUnit_097087_l :
    parseAmountUnit "0.97087 l" = some (97087 / 100000, "l") := by
  have a1 : splitOnChar ' ' "0.97087 l".data =
      [['0', '.', '9', '7', '0', '8', '7'], ['l']] := by decide
  have a2 : splitOnChar '.' (String.mk ['0', '.', '9', '7', '0', '8', '7']).data =
      [['0'], ['9', '7', '0', '8', '7']] := by decide
  have a3 : digitsToNat ['0'] = some 0 := by decide
  have a4 : digitsToNat ['9', '7', '0', '8', '7'] = some 97087 := by decide
  simp [parseAmountUnit, parseDecimal, a1, a2, a3, a4]
  norm_num

/-- C8 (amended): the conversion equations are as claimed — kg to l is
`liters = (weight_kg / density) * 1000`, l to kg is `kg = density * liters`,
and any other unit pair yields no conversion — but because only the kg-to-l
direction carries the factor 1000, the kg-to-l-to-kg round trip returns
1000 times the original amount; at density 1.03, 1 kg converts to about
970.87 liters, and it is 0.97087 l that converts back to approximately 1 kg
(exactly 0.9999961). -/
theorem c8_convert_amended (a d : ℚ) (hd : d ≠ 0) (u v : String)
    (h : ¬((u = "kg" ∧ v = "l") ∨ (u = "l" ∧ v = "kg"))) :
    convertCore a "kg" "l" d = some (a / d * 1000) ∧
    convertCore a "l" "kg" d = some (d * a) ∧
    convertCore a u v d = Option.none ∧
    ((convertCore a "kg" "l" d).bind fun lv => convertCore lv "l" "kg" d) =
      some (1000 * a) ∧
    ProductPackage.convert "1 kg" "l" (103 / 100) = some (100000 / 103) ∧
    ProductPackage.convert "0.97087 l" "kg" (103 / 100) =
      some (9999961 / 10000000) := by
  have h1 : ¬(u = "kg" ∧ v = "l") := fun hc => h (Or.inl hc)
  have h2 : ¬(u = "l" ∧ v = "kg") := fun hc => h (Or.inr hc)
  refine ⟨rfl, rfl, by simp [convertCore, h1, h2], ?_, ?_, ?_⟩
  · simp [convertCore]
    field_simp
    ring
  · simp [ProductPackage.convert, parseAmountUnit_one_kg, convertCore]
    norm_num
  · simp [ProductPackage.convert, parseAmountUnit_097087_l, convertCore]
    norm_num

/-- C8 witness: the amended theorem applied at amount 1 and density 1.03,
with the unsupported unit pair kg to kg. -/
theorem c8_convert_amended_witness :
    convertCore 1 "kg" "kg" (103 / 100) = Option.none ∧
    ((convertCore 1 "kg" "l" (103 / 100)).bind fun lv =>
      convertCore lv "l" "kg" (103 / 100)) = some 1000 := by
  have h := c8_convert_amended 1 (103 / 100) (by norm_num) "kg" "kg"
    (by simp)
  refine ⟨h.2.2.1, ?_⟩
  have h4 := h.2.2.2.1
  simpa using h4

lemma storageRegister_of_present {V : Type} (st : Storage V)
    (ns key : String) (v2 : V) (tree : NsTree V)
    (h : alLookup st ns = some tree) (w : V)
    (hw : alLookup tree key = some w) :
    storageRegister st ns key v2 = st := by
  simp [storageRegister, h, hw]

/-- C6: registration is idempotent and never overwrites — after
`register`, the entity namespace holds exactly one record under the entity
key, and a second `register` of any entity with the same key in the same
namespace is a no-op on the whole storage state. -/
theorem c6_register_idempotent {V : Type} (st : Storage V) (ns key : String)
    (v v2 : V) (hwf : StorageWF st) :
    (∃ tree, alLookup (storageRegister st ns key v) ns = some tree ∧
      countKey tree key = 1) ∧
    storageRegister (storageRegister st ns key v) ns key v2 =
      storageRegister st ns key v := by
  cases h1 : alLookup st ns with
  | none =>
      have e1 : storageRegister st ns key v =
          alSet (alSet st ns []) ns [(key, v)] := by
        simp [storageRegister, h1, alLookup_alSet_self, alLookup]
      have e2 : alLookup (storageRegister st ns key v) ns =
          some [(key, v)] := by
        rw [e1]; exact alLookup_alSet_self _ ns [(key, v)]
      constructor
      · exact ⟨[(key, v)], e2, by simp [countKey, List.filter]⟩
      · exact storageRegister_of_present _ ns key v2 [(key, v)] e2 v
          (by simp [alLookup])
  | some tree0 =>
      cases h2 : alLookup tree0 key with
      | some w =>
          have e1 : storageRegister st ns key v = st := by
            simp [storageRegister, h1, h2]
          constructor
          · refine ⟨tree0, ?_, ?_⟩
            · rw [e1]; exact h1
            · exact Nat.le_antisymm (hwf ns tree0 h1 key)
                (countKey_pos_of_lookup_some tree0 key w h2)
          · rw [e1]
            exact storageRegister_of_present st ns key v2 tree0 h1 w h2
      | none =>
          have e1 : storageRegister st ns key v =
              alSet st ns (tree0 ++ [(key, v)]) := by
            simp [storageRegister, h1, h2]
          have e2 : alLookup (storageRegister st ns key v) ns =
              some (tree0 ++ [(key, v)]) := by
            rw [e1]; exact alLookup_alSet_self _ ns _
          have e3 : alLookup (tree0 ++ [(key, v)]) key = some v := by
            rw [alLookup_append_of_none _ _ _ h2]; simp [alLookup]
          constructor
          · refine ⟨tree0 ++ [(key, v)], e2, ?_⟩
            rw [countKey_append_self, countKey_of_lookup_none _ _ h2]
          · exact storageRegister_of_present _ ns key v2 (tree0 ++ [(key, v)])
              e2 v e3

/-- C6 witness: the theorem applied to the empty storage root, a product
namespace, and two distinct records under one key. -/
theorem c6_register_idempotent_witness :
    (∃ tree, alLookup (storageRegister ([] : Storage ℕ) "products" "p1" 7)
        "products" = some tree ∧ countKey tree "p1" = 1) ∧
    storageRegister (storageRegister ([] : Storage ℕ) "products" "p1" 7)
        "products" "p1" 8 =
      storageRegister ([] : Storage ℕ) "products" "p1" 7 :=
  c6_register_idempotent [] "products" "p1" 7 8
    (by intro ns tree h key; simp [alLookup] at h)

/-- C1: on an empty storage, assembling a report for a previously-unseen
product freshly creates its category and package — the inner
`Product.assemble` stats pair is `(cat_is_new, pack_is_new) = (true, true)`
— yet the stats triple returned by `PriceReport.assemble` is
`(prod_is_new, cat_is_new, pack_is_new) = (true, false, false)`: the inner
pair is bound to the local name `stats`, which the final
`stats = prod_is_new, cat_is_new, pack_is_new` assignment overwrites, so
the category and package flags are always `False`. -/
theorem c1_assemble_stats_bug :
    (priceReportAssemble [] "Milk" "milk" "1 kg" "dairy" "Shop" "Jane"
        "u1").2.1 = (true, false, false) ∧
    (productAssemble [] "Milk" "milk" "1 kg" "dairy").2.1 = (true, true) :=
  ⟨rfl, rfl⟩

/-- C3: deleting a report whose back-reference is already absent from its
product report list raises `ValueError` — a Python list `remove` failure —
which the `except (KeyError, AttributeError)` clause does not catch, so the
deletion does not complete silently (and the storage entry is not removed);
when the back-reference is present, it is removed from the product report
list and the storage entry under the reports namespace is removed. -/
theorem c3_delete_report_bug :
    priceReportDeleteFrom [] ⟨"u1"⟩ ([] : Storage EntityVal) =
      .error .valueError ∧
    priceReportDeleteFrom [⟨"u1"⟩] ⟨"u1"⟩
        ([("reports", [("u1", EntityVal.report "u1")])] : Storage EntityVal) =
      .ok ([], [("reports", [])]) :=
  ⟨rfl, rfl⟩

lemma foldl_min_spec : ∀ (xs : List ℚ) (x : ℚ),
    (xs.foldl min x = x ∨ xs.foldl min x ∈ xs) ∧
    xs.foldl min x ≤ x ∧ ∀ z ∈ xs, xs.foldl min x ≤ z := by
  intro xs
  induction xs with
  | nil => exact fun x => ⟨Or.inl rfl, le_refl x, by simp⟩
  | cons y ys ih =>
      intro x
      obtain ⟨hmem, hle, hall⟩ := ih (min x y)
      have hfold : (y :: ys).foldl min x = ys.foldl min (min x y) := rfl
      refine ⟨?_, ?_, ?_⟩
      · rw [hfold]
        rcases hmem with h | h
        · rcases le_total x y with hxy | hyx
          · exact Or.inl (by rw [h, min_eq_left hxy])
          · refine Or.inr ?_
            rw [h, min_eq_right hyx]
            exact List.mem_cons_self y ys
        · exact Or.inr (List.mem_cons_of_mem y h)
      · rw [hfold]
        exact le_trans hle (min_le_left x y)
      · intro z hz
        rw [hfold]
        rcases List.mem_cons.mp hz with rfl | hz2
        · exact le_trans hle (min_le_right x z)
        · exact hall z hz2

/-- C7: category price aggregation over the qualified price list —
an empty list yields no value in both modes (never an exception); on a
non-empty list the default mode is the median rounded to two decimal
places and the cheap mode is the minimum of the list; for the list
10, 20, 30 the default mode gives 20 and the cheap mode gives 10. -/
theorem c7_category_get_price (prices : List ℚ) (h : prices ≠ []) :
    categoryGetPrice [] true = Option.none ∧
    categoryGetPrice [] false = Option.none ∧
    categoryGetPrice [10, 20, 30] false = some 20 ∧
    categoryGetPrice [10, 20, 30] true = some 10 ∧
    categoryGetPrice prices false = (numpyMedian prices).map pyRound2 ∧
    ∃ m, categoryGetPrice prices true = some m ∧ m ∈ prices ∧
      ∀ z ∈ prices, m ≤ z := by
  refine ⟨rfl, rfl, ?_, by decide, ?_, ?_⟩
  · norm_num [categoryGetPrice, numpyMedian, sortQ, insertSortedQ,
      pyRound2, pyRound]
  · simp [categoryGetPrice, h]
  · obtain ⟨p, ps, rfl⟩ := List.exists_cons_of_ne_nil h
    obtain ⟨hmem, hle, hall⟩ := foldl_min_spec ps p
    refine ⟨ps.foldl min p, by simp [categoryGetPrice, pyMin], ?_, ?_⟩
    · rcases hmem with he | he
      · rw [he]; exact List.mem_cons_self p ps
      · exact List.mem_cons_of_mem p he
    · intro z hz
      rcases List.mem_cons.mp hz with rfl | hz2
      · exact hle
      · exact hall z hz2

/-- C7 witness: the theorem applied to the concrete list 10, 20, 30. -/
theorem c7_category_get_price_witness :
    categoryGetPrice [10, 20, 30] false = some 20 ∧
    categoryGetPrice [10, 20, 30] true = some 10 :=
  ⟨(c7_category_get_price [10, 20, 30] (by simp)).2.2.1,
   (c7_category_get_price [10, 20, 30] (by simp)).2.2.2.1⟩

/-- C10: in `Product.get_price` with a truthy location, a first merchant
whose location differs from the requested one executes `break`, ending the
merchant loop with no collected prices, so the result is no value — whatever
later merchants (even ones matching the location with fresh reports) the
product has. -/
theorem c10_location_break (loc : String) (hloc : loc ≠ "")
    (m : MerchantRef) (ms : List MerchantRef) (reports : List ReportRec)
    (dt : ℤ) (norm : Bool) (h : m.location ≠ some loc) :
    productGetPrice ⟨m :: ms, reports⟩ dt norm (some loc) = Option.none := by
  simp [productGetPrice, productGetPriceLoop, locTruthy, hloc, h]

/-- C10 witness: the theorem applied to a product whose first merchant is at
location A while location B is requested; the second merchant is at B and
has a fresh report (as the one-merchant variant shows), yet the two-merchant
product yields no price. -/
theorem c10_location_break_witness :
    productGetPrice ⟨[⟨0, some "A"⟩, ⟨1, some "B"⟩],
        [⟨⟨1, some "B"⟩, 0, 10, 10⟩]⟩ 0 true (some "B") = Option.none ∧
    productGetPrice ⟨[⟨1, some "B"⟩], [⟨⟨1, some "B"⟩, 0, 10, 10⟩]⟩ 0 true
        (some "B") = some 10 :=
  ⟨c10_location_break "B" (by decide) ⟨0, some "A"⟩ [⟨1, some "B"⟩]
      [⟨⟨1, some "B"⟩, 0, 10, 10⟩] 0 true (by simp),
   by decide⟩
